import Mathlib

/-!
Verification of `crispy/scan_one_chromosome.py`.

The module is embedded shallowly: Python strings become `List Char`, Python
`str.upper()` on one character becomes `Char.toUpper`, Python slices (which
clamp, never raise) become `pySlice`, the dictionary lookup of
`reverse_complement` (which raises `KeyError` off the dictionary) becomes an
`Option`-valued lookup, and the mutable scanner object becomes explicit state
passing.  Fallible methods return an error value next to the unchanged state.
-/

/-- Python's `str.upper()` restricted to one ASCII character. -/
def pyUpper (c : Char) : Char := c.toUpper

/-- Python slice `s[a:b]` for `0 ≤ a ≤ b`: clamps at the end of the string and
never raises. -/
def pySlice (s : List Char) (a b : Nat) : List Char := (s.drop a).take (b - a)

/-- The whitespace characters removed by Python's `str.strip()` (ASCII range). -/
def isPySpace (c : Char) : Bool :=
  c = ' ' || c = '\t' || c = '\n' || c = '\x0d' || c = '\x0b' || c = '\x0c'

/-- Python's `str.strip()`: drop whitespace from both ends of the line. -/
def pyStrip (l : List Char) : List Char :=
  ((l.dropWhile isPySpace).reverse.dropWhile isPySpace).reverse

/-- The lookup `complement_dict[base]` from `reverse_complement`; `none` models
the `KeyError` raised on a character outside the dictionary. -/
def complement_dict (c : Char) : Option Char :=
  if c = 'A' then some 'T' else if c = 'T' then some 'A'
  else if c = 'C' then some 'G' else if c = 'G' then some 'C'
  else if c = 'N' then some 'N' else if c = 'n' then some 'n'
  else if c = 'a' then some 't' else if c = 't' then some 'a'
  else if c = 'c' then some 'g' else if c = 'g' then some 'c'
  else none

/-- `reverse_complement(dna_string)`: builds the complement character by
character in input order (the source never reverses the string, despite the
name).  `none` models an escaping `KeyError`. -/
def reverse_complement : List Char → Option (List Char)
  | [] => some []
  | c :: rest => do
      let d ← complement_dict c
      let ds ← reverse_complement rest
      pure (d :: ds)

/-- The value type built by `GuideRNA.__init__`. -/
structure GuideRNA where
  sequence : List Char
  range : Int × Int
  chromosome_num : List Char
  lowerscore : Nat
  nscore : Nat
deriving DecidableEq

/-- `GuideRNA.__init__`: stores sequence, coordinate range and chromosome, and
in one pass counts the characters that differ from `sequence.upper()` at the
same index (`lowerscore`) and the characters whose `upper()` is `'N'`
(`nscore`).  The index-wise comparison against `sequence.upper()` is the zip
with the character-wise uppercase image. -/
def mkGuideRNA (sequence : List Char) (start_coord end_coord : Int)
    (chromosome_num : List Char) : GuideRNA :=
  { sequence := sequence
    range := (start_coord, end_coord)
    chromosome_num := chromosome_num
    lowerscore :=
      ((sequence.zip (sequence.map pyUpper)).filter (fun p => p.1 != p.2)).length
    nscore := (sequence.filter (fun c => pyUpper c == 'N')).length }

/-- C4: the constructed record's `nscore` counts exactly the case-insensitive
`'N'` characters of the sequence, and its `lowerscore` counts exactly the
characters that differ from their own uppercase form. -/
theorem mkGuideRNA_scores_count (s : List Char) (a b : Int) (chrom : List Char) :
    (mkGuideRNA s a b chrom).nscore = s.countP (fun c => pyUpper c == 'N') ∧
    (mkGuideRNA s a b chrom).lowerscore = s.countP (fun c => c != pyUpper c) := by
  constructor
  · simp [mkGuideRNA, List.countP_eq_length_filter]
  · have hz : s.zip (s.map pyUpper) = s.map (fun c => (c, pyUpper c)) := by
      have := List.zip_map' (id : Char → Char) pyUpper s
      simpa using this
    simp only [mkGuideRNA, hz, List.filter_map, List.countP_eq_length_filter,
      List.length_map]
    rfl

/-- Each character of the alphabet has a complement in the dictionary, and
complementing twice gives the character back. -/
lemma complement_dict_involutive {c : Char}
    (hc : c ∈ ['A', 'C', 'G', 'T', 'N', 'a', 'c', 'g', 't', 'n']) :
    ∃ d, complement_dict c = some d ∧ complement_dict d = some c := by
  fin_cases hc <;> exact ⟨_, rfl, rfl⟩

/-- Over the alphabet, `reverse_complement` succeeds and applying it to the
result gives back the input. -/
lemma reverse_complement_roundtrip (s : List Char)
    (h : ∀ c ∈ s, c ∈ ['A', 'C', 'G', 'T', 'N', 'a', 'c', 'g', 't', 'n']) :
    ∃ t, reverse_complement s = some t ∧ reverse_complement t = some s := by
  induction s with
  | nil => exact ⟨[], rfl, rfl⟩
  | cons c rest ih =>
      obtain ⟨d, hd, hdc⟩ := complement_dict_involutive (h c (by simp))
      obtain ⟨t, ht, hts⟩ := ih (fun x hx => h x (by simp [hx]))
      refine ⟨d :: t, ?_, ?_⟩
      · simp [reverse_complement, hd, ht]
      · simp [reverse_complement, hdc, hts]

/-- C9: applying the module's `reverse_complement` twice to any string over the
alphabet `{A,C,G,T,N,a,c,g,t,n}` is the identity (the function only
complements, never reverses, and complementing is a character-wise
involution). -/
theorem reverse_complement_involutive (s : List Char)
    (h : ∀ c ∈ s, c ∈ ['A', 'C', 'G', 'T', 'N', 'a', 'c', 'g', 't', 'n']) :
    (reverse_complement s).bind reverse_complement = some s := by
  obtain ⟨t, ht, hts⟩ := reverse_complement_roundtrip s h
  simp [ht, hts]

/-- Witness for C9 at the concrete string "AcgTN". -/
theorem reverse_complement_involutive_witness :
    (reverse_complement ['A', 'c', 'g', 'T', 'N']).bind reverse_complement =
      some ['A', 'c', 'g', 'T', 'N'] :=
  reverse_complement_involutive ['A', 'c', 'g', 'T', 'N'] (by decide)

/-- The mutable scanner state touched by `forward_scan`/`reverse_scan`:
`start_positions_fwd`/`start_positions_rev` (the dedup caches, keyed by
absolute start coordinate) and the data rows appended so far to the
`_F.txt`/`_R.txt` output files (their fixed header line is left implicit). -/
structure ScanState where
  fwdCache : List Int
  revCache : List Int
  fwdOut : List GuideRNA
  revOut : List GuideRNA
deriving DecidableEq

/-- Scanner state at the top of `scan_bidirection`: empty caches, freshly
initialized output files. -/
def initScanState : ScanState := ⟨[], [], [], []⟩

/-- `ChromosomeFile.forward_scan`: on a case-insensitive "GG" at
`char_idx, char_idx+1`, slice the candidate `chrom_window[char_idx-21 :
char_idx+2]`, skip it if its absolute start coordinate is cached, otherwise
append the record to the forward output file and remember the coordinate.
Call sites guarantee `char_idx + 1 < len(chrom_window)` (the loop enumerates
`chrom_window[0:-1]`) and `21 ≤ char_idx`, so the reads and the natural
subtraction below are exact. -/
def forward_scan (chrom_start window_start : Int) (chromosome_num : List Char)
    (chrom_window : List Char) (char_idx : Nat) (st : ScanState) : ScanState :=
  if pyUpper (chrom_window.getD char_idx ' ') = 'G' ∧
      pyUpper (chrom_window.getD (char_idx + 1) ' ') = 'G' then
    let guide := pySlice chrom_window (char_idx - 21) (char_idx + 2)
    let start : Int := chrom_start + window_start + char_idx - 21
    if start ∈ st.fwdCache then st
    else
      { st with
        fwdOut := st.fwdOut ++
          [mkGuideRNA guide start (chrom_start + window_start + char_idx + 1)
            chromosome_num]
        fwdCache := st.fwdCache ++ [start] }
  else st

/-- `ChromosomeFile.reverse_scan`: on a case-insensitive "CC" at
`char_idx, char_idx+1`, slice the candidate `chrom_window[char_idx :
char_idx+24]` (a Python slice, so it silently truncates at the end of the
window), dedup on the absolute start coordinate, and append to the reverse
output file. -/
def reverse_scan (chrom_start window_start : Int) (chromosome_num : List Char)
    (chrom_window : List Char) (char_idx : Nat) (st : ScanState) : ScanState :=
  if pyUpper (chrom_window.getD char_idx ' ') = 'C' ∧
      pyUpper (chrom_window.getD (char_idx + 1) ' ') = 'C' then
    let guide := pySlice chrom_window char_idx (char_idx + 24)
    let start : Int := chrom_start + window_start + char_idx
    if start ∈ st.revCache then st
    else
      { st with
        revOut := st.revOut ++
          [mkGuideRNA guide start (chrom_start + window_start + char_idx + 23)
            chromosome_num]
        revCache := st.revCache ++ [start] }
  else st

/-- The body of `scan_bidirection`'s for-loop at one offset `char_idx`: the
forward check is gated on `char_idx >= 21` and the reverse check on
`char_idx <= 100 - 24`. -/
def scanWindowStep (chrom_start window_start : Int) (chromosome_num : List Char)
    (chrom_window : List Char) (st : ScanState) (char_idx : Nat) : ScanState :=
  let st1 :=
    if 21 ≤ char_idx then
      forward_scan chrom_start window_start chromosome_num chrom_window char_idx st
    else st
  if char_idx ≤ 100 - 24 then
    reverse_scan chrom_start window_start chromosome_num chrom_window char_idx st1
  else st1

/-- The loop `for char_idx, char in enumerate(self.chrom_window[0:-1])` of
`scan_bidirection`: every offset of `chrom_window[0:-1]` in order. -/
def scanWindow (chrom_start window_start : Int) (chromosome_num : List Char)
    (chrom_window : List Char) (st : ScanState) : ScanState :=
  (List.range chrom_window.dropLast.length).foldl
    (scanWindowStep chrom_start window_start chromosome_num chrom_window) st

/-- The condition under which the loop of `scan_bidirection` lets
`forward_scan` fire at offset `i` of a window it enumerates. -/
def fwdCondP (w : List Char) (i : Nat) : Prop :=
  21 ≤ i ∧ pyUpper (w.getD i ' ') = 'G' ∧ pyUpper (w.getD (i + 1) ' ') = 'G'

instance (w : List Char) (i : Nat) : Decidable (fwdCondP w i) := by
  unfold fwdCondP; infer_instance

/-- The condition under which the loop of `scan_bidirection` lets
`reverse_scan` fire at offset `i` of a window it enumerates. -/
def revCondP (w : List Char) (i : Nat) : Prop :=
  i ≤ 100 - 24 ∧ pyUpper (w.getD i ' ') = 'C' ∧ pyUpper (w.getD (i + 1) ' ') = 'C'

instance (w : List Char) (i : Nat) : Decidable (revCondP w i) := by
  unfold revCondP; infer_instance

/-- The record `forward_scan` emits at offset `i`. -/
def fwdRecord (cs ws : Int) (chrom w : List Char) (i : Nat) : GuideRNA :=
  mkGuideRNA (pySlice w (i - 21) (i + 2)) (cs + ws + i - 21) (cs + ws + i + 1) chrom

/-- The record `reverse_scan` emits at offset `i`. -/
def revRecord (cs ws : Int) (chrom w : List Char) (i : Nat) : GuideRNA :=
  mkGuideRNA (pySlice w i (i + 24)) (cs + ws + i) (cs + ws + i + 23) chrom

/-- The scanner state after the loop has processed offsets `[0, k)` starting
from `initScanState`. -/
def scanSpec (cs ws : Int) (chrom w : List Char) (k : Nat) : ScanState :=
  { fwdCache := ((List.range k).filter (fun i => decide (fwdCondP w i))).map
      (fun i : Nat => cs + ws + (i : Int) - 21)
    revCache := ((List.range k).filter (fun i => decide (revCondP w i))).map
      (fun i : Nat => cs + ws + (i : Int))
    fwdOut := ((List.range k).filter (fun i => decide (fwdCondP w i))).map
      (fwdRecord cs ws chrom w)
    revOut := ((List.range k).filter (fun i => decide (revCondP w i))).map
      (revRecord cs ws chrom w) }

lemma fwd_coord_not_mem {cs ws : Int} {w : List Char} {k : Nat} :
    cs + ws + k - 21 ∉
      (((List.range k).filter (fun i => decide (fwdCondP w i))).map
        (fun i : Nat => cs + ws + (i : Int) - 21)) := by
  intro hmem
  rw [List.mem_map] at hmem
  obtain ⟨j, hj, hje⟩ := hmem
  rw [List.mem_filter] at hj
  have hjk : j < k := List.mem_range.mp hj.1
  omega

lemma rev_coord_not_mem {cs ws : Int} {w : List Char} {k : Nat} :
    cs + ws + k ∉
      (((List.range k).filter (fun i => decide (revCondP w i))).map
        (fun i : Nat => cs + ws + (i : Int))) := by
  intro hmem
  rw [List.mem_map] at hmem
  obtain ⟨j, hj, hje⟩ := hmem
  rw [List.mem_filter] at hj
  have hjk : j < k := List.mem_range.mp hj.1
  omega

lemma scanWindowStep_spec (cs ws : Int) (chrom w : List Char) (k : Nat) :
    scanWindowStep cs ws chrom w (scanSpec cs ws chrom w k) k =
      scanSpec cs ws chrom w (k + 1) := by
  have hrange : List.range (k + 1) = List.range k ++ [k] := List.range_succ k
  have hfwd : ((List.range (k + 1)).filter (fun i => decide (fwdCondP w i))) =
      ((List.range k).filter (fun i => decide (fwdCondP w i))) ++
        (if fwdCondP w k then [k] else []) := by
    rw [hrange, List.filter_append]
    by_cases h : fwdCondP w k <;> simp [h]
  have hrev : ((List.range (k + 1)).filter (fun i => decide (revCondP w i))) =
      ((List.range k).filter (fun i => decide (revCondP w i))) ++
        (if revCondP w k then [k] else []) := by
    rw [hrange, List.filter_append]
    by_cases h : revCondP w k <;> simp [h]
  by_cases h21 : 21 ≤ k
  · by_cases hg : pyUpper (w.getD k ' ') = 'G' ∧ pyUpper (w.getD (k + 1) ' ') = 'G'
    · by_cases hc : pyUpper (w.getD k ' ') = 'C' ∧ pyUpper (w.getD (k + 1) ' ') = 'C'
      · exfalso
        have := hg.1; have := hc.1
        simp_all
      · have hfc : fwdCondP w k := ⟨h21, hg⟩
        have hrc : ¬ revCondP w k := fun hr => hc hr.2
        simp only [scanWindowStep, forward_scan, reverse_scan, if_pos h21,
          if_pos hg, if_neg hc]
        by_cases hk76 : k ≤ 100 - 24 <;>
          simp [scanSpec, hfwd, hrev, hfc, hrc, hk76,
            fwd_coord_not_mem, fwdRecord]
    · have hfc : ¬ fwdCondP w k := fun hf => hg hf.2
      by_cases hc : pyUpper (w.getD k ' ') = 'C' ∧ pyUpper (w.getD (k + 1) ' ') = 'C'
      · simp only [scanWindowStep, forward_scan, reverse_scan, if_pos h21,
          if_neg hg, if_pos hc]
        by_cases hk76 : k ≤ 100 - 24
        · have hrc : revCondP w k := ⟨hk76, hc⟩
          simp [scanSpec, hfwd, hrev, hfc, hrc, hk76,
            rev_coord_not_mem, revRecord]
        · have hrc : ¬ revCondP w k := fun hr => hk76 hr.1
          simp [scanSpec, hfwd, hrev, hfc, hrc, hk76]
      · have hrc : ¬ revCondP w k := fun hr => hc hr.2
        simp only [scanWindowStep, forward_scan, reverse_scan, if_pos h21,
          if_neg hg, if_neg hc]
        by_cases hk76 : k ≤ 100 - 24 <;>
          simp [scanSpec, hfwd, hrev, hfc, hrc, hk76]
  · have hfc : ¬ fwdCondP w k := fun hf => h21 hf.1
    have hk76 : k ≤ 100 - 24 := by omega
    by_cases hc : pyUpper (w.getD k ' ') = 'C' ∧ pyUpper (w.getD (k + 1) ' ') = 'C'
    · have hrc : revCondP w k := ⟨hk76, hc⟩
      simp only [scanWindowStep, reverse_scan, if_neg h21, if_pos hk76, if_pos hc]
      simp [scanSpec, hfwd, hrev, hfc, hrc, rev_coord_not_mem, revRecord]
    · have hrc : ¬ revCondP w k := fun hr => hc hr.2
      simp only [scanWindowStep, reverse_scan, if_neg h21, if_pos hk76, if_neg hc]
      simp [scanSpec, hfwd, hrev, hfc, hrc]

lemma foldl_scanSpec (cs ws : Int) (chrom w : List Char) (k : Nat) :
    (List.range k).foldl (scanWindowStep cs ws chrom w) initScanState =
      scanSpec cs ws chrom w k := by
  induction k with
  | zero => simp [scanSpec, initScanState]
  | succ k ih =>
      rw [List.range_succ, List.foldl_append, ih]
      simpa using scanWindowStep_spec cs ws chrom w k

/-- Characterization of one full window pass from a fresh state: the outputs
are exactly the records of the qualifying offsets, in offset order, and the
caches hold exactly their coordinates. -/
lemma scanWindow_init_eq (cs ws : Int) (chrom w : List Char) :
    scanWindow cs ws chrom w initScanState =
      scanSpec cs ws chrom w w.dropLast.length :=
  foldl_scanSpec cs ws chrom w w.dropLast.length

lemma length_pySlice (s : List Char) (a b : Nat) :
    (pySlice s a b).length = min (b - a) (s.length - a) := by
  simp [pySlice]

lemma mkGuideRNA_scores_le (s : List Char) (a b : Int) (chrom : List Char) :
    (mkGuideRNA s a b chrom).lowerscore ≤ s.length ∧
      (mkGuideRNA s a b chrom).nscore ≤ s.length := by
  constructor
  · exact le_trans (List.length_filter_le _ _) (by simp [List.length_zip])
  · exact List.length_filter_le _ _

/-- Membership in the forward output of one fresh window pass. -/
lemma mem_fwdOut_iff (cs ws : Int) (chrom w : List Char) (r : GuideRNA) :
    r ∈ (scanWindow cs ws chrom w initScanState).fwdOut ↔
      ∃ i, i + 2 ≤ w.length ∧ fwdCondP w i ∧ r = fwdRecord cs ws chrom w i := by
  rw [scanWindow_init_eq]
  simp only [scanSpec, List.mem_map, List.mem_filter, List.mem_range,
    decide_eq_true_eq]
  constructor
  · rintro ⟨i, ⟨hi, hcond⟩, rfl⟩
    have hlen : i + 2 ≤ w.length := by
      have := List.length_dropLast w
      omega
    exact ⟨i, hlen, hcond, rfl⟩
  · rintro ⟨i, hi, hcond, rfl⟩
    have hlen : i < w.dropLast.length := by
      have := List.length_dropLast w
      omega
    exact ⟨i, ⟨hlen, hcond⟩, rfl⟩

/-- Membership in the reverse output of one fresh window pass. -/
lemma mem_revOut_iff (cs ws : Int) (chrom w : List Char) (r : GuideRNA) :
    r ∈ (scanWindow cs ws chrom w initScanState).revOut ↔
      ∃ i, i + 2 ≤ w.length ∧ revCondP w i ∧ r = revRecord cs ws chrom w i := by
  rw [scanWindow_init_eq]
  simp only [scanSpec, List.mem_map, List.mem_filter, List.mem_range,
    decide_eq_true_eq]
  constructor
  · rintro ⟨i, ⟨hi, hcond⟩, rfl⟩
    have hlen : i + 2 ≤ w.length := by
      have := List.length_dropLast w
      omega
    exact ⟨i, hlen, hcond, rfl⟩
  · rintro ⟨i, hi, hcond, rfl⟩
    have hlen : i < w.dropLast.length := by
      have := List.length_dropLast w
      omega
    exact ⟨i, ⟨hlen, hcond⟩, rfl⟩

/-- C2: the forward detector (the `char_idx >= 21` gate of `scan_bidirection`
combined with `forward_scan`) reports a hit at offset `i` of a window exactly
when `w[i]` and `w[i+1]` are both "G" case-insensitively, `21 ≤ i` and
`i + 2 ≤ len(w)`; the model is a total function, so no exception reaches the
caller at any other position. -/
theorem forward_hit_iff (cs ws : Int) (chrom w : List Char) (i : Nat) :
    (∃ r ∈ (scanWindow cs ws chrom w initScanState).fwdOut,
        r.range.1 = cs + ws + (i : Int) - 21) ↔
      (21 ≤ i ∧ i + 2 ≤ w.length ∧
        pyUpper (w.getD i ' ') = 'G' ∧ pyUpper (w.getD (i + 1) ' ') = 'G') := by
  constructor
  · rintro ⟨r, hr, hcoord⟩
    rw [mem_fwdOut_iff] at hr
    obtain ⟨j, hj2, hjc, rfl⟩ := hr
    have hji : (j : Int) = (i : Int) := by
      simp only [fwdRecord, mkGuideRNA] at hcoord
      omega
    have hji' : j = i := by omega
    subst hji'
    exact ⟨hjc.1, hj2, hjc.2.1, hjc.2.2⟩
  · rintro ⟨h21, h2, hg1, hg2⟩
    refine ⟨fwdRecord cs ws chrom w i, ?_, rfl⟩
    rw [mem_fwdOut_iff]
    exact ⟨i, h2, ⟨h21, hg1, hg2⟩, rfl⟩

/-- C1 (amended): the reverse detector reports a hit at offset `i` exactly when
`w[i]` and `w[i+1]` are both "C" case-insensitively, `i + 2 ≤ len(w)` (the
loop enumerates `w[0:-1]`) and `i ≤ 76` (the literal `100 - 24` gate); the
bound `i + 24 ≤ len(w)` plays no role. -/
theorem reverse_hit_iff (cs ws : Int) (chrom w : List Char) (i : Nat) :
    (∃ r ∈ (scanWindow cs ws chrom w initScanState).revOut,
        r.range.1 = cs + ws + (i : Int)) ↔
      (i + 2 ≤ w.length ∧ i ≤ 76 ∧
        pyUpper (w.getD i ' ') = 'C' ∧ pyUpper (w.getD (i + 1) ' ') = 'C') := by
  constructor
  · rintro ⟨r, hr, hcoord⟩
    rw [mem_revOut_iff] at hr
    obtain ⟨j, hj2, hjc, rfl⟩ := hr
    have hji : (j : Int) = (i : Int) := by
      simp only [revRecord, mkGuideRNA] at hcoord
      omega
    have hji' : j = i := by omega
    subst hji'
    exact ⟨hj2, by have := hjc.1; omega, hjc.2.1, hjc.2.2⟩
  · rintro ⟨h2, h76, hc1, hc2⟩
    refine ⟨revRecord cs ws chrom w i, ?_, rfl⟩
    rw [mem_revOut_iff]
    exact ⟨i, h2, ⟨by omega, hc1, hc2⟩, rfl⟩

/-- C1 counterexample: on the window "CCA" at offset 0, both characters are
"C" and a reverse hit is emitted (its absolute start coordinate is cached and
its record written), yet `0 + 24 ≤ len("CCA")` is false — the code's gate is
`i ≤ 76`, not `i + 24 ≤ len(w)`, and the Python slice silently truncates. -/
theorem reverse_hit_claim_counterexample :
    ¬ ((∃ r ∈ (scanWindow 0 0 ['1'] ['C', 'C', 'A'] initScanState).revOut,
          r.range.1 = 0) ↔
        (pyUpper 'C' = 'C' ∧ pyUpper 'C' = 'C' ∧
          0 + 24 ≤ (['C', 'C', 'A'] : List Char).length)) := by
  decide

/-- The concrete window used for reverse-strand examples: "CC" then 24 "A"s. -/
def wRevEx : List Char := ['C', 'C'] ++ List.replicate 24 'A'

/-- C3 counterexample: scanning the window "CC" + 24 "A"s emits a reverse
record whose stored sequence has length 24, not 23 (reverse candidates are the
24-character slice `w[i : i+24]`), so not every emitted record has a
23-character sequence. -/
theorem guide_record_length_counterexample :
    ¬ (∀ r ∈ (scanWindow 0 0 ['1'] wRevEx initScanState).revOut,
        r.sequence.length = 23 ∧ r.lowerscore ≤ 23 ∧ r.nscore ≤ 23) := by
  decide

/-- C3 (amended): every record emitted by a window pass has
`lowerscore ≤ len(sequence)` and `nscore ≤ len(sequence)`; forward records
have `len(sequence) = 23` exactly, while reverse records have
`len(sequence) ≤ 24` (24 when the slice fits, fewer when it truncates). -/
theorem guide_record_invariants (cs ws : Int) (chrom w : List Char) (r : GuideRNA) :
    (r ∈ (scanWindow cs ws chrom w initScanState).fwdOut →
      r.sequence.length = 23 ∧ r.lowerscore ≤ r.sequence.length ∧
        r.nscore ≤ r.sequence.length) ∧
    (r ∈ (scanWindow cs ws chrom w initScanState).revOut →
      r.sequence.length ≤ 24 ∧ r.lowerscore ≤ r.sequence.length ∧
        r.nscore ≤ r.sequence.length) := by
  constructor
  · intro hr
    rw [mem_fwdOut_iff] at hr
    obtain ⟨i, h2, hc, rfl⟩ := hr
    have h21 := hc.1
    have hseq : (fwdRecord cs ws chrom w i).sequence =
        pySlice w (i - 21) (i + 2) := rfl
    have hlen : (fwdRecord cs ws chrom w i).sequence.length = 23 := by
      rw [hseq, length_pySlice]
      omega
    refine ⟨hlen, ?_, ?_⟩
    · rw [hlen]
      have := (mkGuideRNA_scores_le (pySlice w (i - 21) (i + 2))
        (cs + ws + i - 21) (cs + ws + i + 1) chrom).1
      calc (fwdRecord cs ws chrom w i).lowerscore
          ≤ (pySlice w (i - 21) (i + 2)).length := this
        _ = 23 := by rw [← hseq, hlen]
    · rw [hlen]
      have := (mkGuideRNA_scores_le (pySlice w (i - 21) (i + 2))
        (cs + ws + i - 21) (cs + ws + i + 1) chrom).2
      calc (fwdRecord cs ws chrom w i).nscore
          ≤ (pySlice w (i - 21) (i + 2)).length := this
        _ = 23 := by rw [← hseq, hlen]
  · intro hr
    rw [mem_revOut_iff] at hr
    obtain ⟨i, h2, hc, rfl⟩ := hr
    have hseq : (revRecord cs ws chrom w i).sequence =
        pySlice w i (i + 24) := rfl
    have hlen : (revRecord cs ws chrom w i).sequence.length ≤ 24 := by
      rw [hseq, length_pySlice]
      omega
    refine ⟨hlen, ?_, ?_⟩
    · have := (mkGuideRNA_scores_le (pySlice w i (i + 24))
        (cs + ws + i) (cs + ws + i + 23) chrom).1
      calc (revRecord cs ws chrom w i).lowerscore
          ≤ (pySlice w i (i + 24)).length := this
        _ = (revRecord cs ws chrom w i).sequence.length := by rw [hseq]
    · have := (mkGuideRNA_scores_le (pySlice w i (i + 24))
        (cs + ws + i) (cs + ws + i + 23) chrom).2
      calc (revRecord cs ws chrom w i).nscore
          ≤ (pySlice w i (i + 24)).length := this
        _ = (revRecord cs ws chrom w i).sequence.length := by rw [hseq]

/-- The concrete window used for forward-strand examples: 21 "A"s then "GGA". -/
def wFwdEx : List Char := List.replicate 21 'A' ++ ['G', 'G', 'A']

/-- The forward record the scanner emits on `wFwdEx` (hit at offset 21). -/
def rFwdEx : GuideRNA := fwdRecord 0 0 ['1'] wFwdEx 21

/-- Witness for the amended C3 on the concrete forward record of `wFwdEx`. -/
theorem guide_record_invariants_witness :
    rFwdEx.sequence.length = 23 ∧ rFwdEx.lowerscore ≤ rFwdEx.sequence.length ∧
      rFwdEx.nscore ≤ rFwdEx.sequence.length :=
  (guide_record_invariants 0 0 ['1'] wFwdEx rFwdEx).1 (by decide)

/-- C10: every forward record of a window pass stores a sequence of length
exactly 23 and coordinates with `end = start + 22` — an inclusive range
spanning exactly the 23 stored bases. -/
theorem forward_record_span (cs ws : Int) (chrom w : List Char) (r : GuideRNA)
    (hr : r ∈ (scanWindow cs ws chrom w initScanState).fwdOut) :
    r.sequence.length = 23 ∧ r.range.2 = r.range.1 + 22 := by
  rw [mem_fwdOut_iff] at hr
  obtain ⟨i, h2, hc, rfl⟩ := hr
  have h21 := hc.1
  constructor
  · have hseq : (fwdRecord cs ws chrom w i).sequence =
        pySlice w (i - 21) (i + 2) := rfl
    rw [hseq, length_pySlice]
    omega
  · show cs + ws + (i : Int) + 1 = cs + ws + (i : Int) - 21 + 22
    omega

/-- Witness for C10 on the concrete forward record of `wFwdEx`. -/
theorem forward_record_span_witness :
    rFwdEx.sequence.length = 23 ∧ rFwdEx.range.2 = rFwdEx.range.1 + 22 :=
  forward_record_span 0 0 ['1'] wFwdEx rFwdEx (by decide)

/-- C7: every reverse-strand record stores, as its sequence, the literal slice
of the forward-read window at its hit offset; `reverse_complement` (defined in
the module but never called by the scanner) is not applied — concretely, on
`wRevEx` the single emitted reverse sequence is the raw slice, which differs
from its reverse complement. -/
theorem reverse_record_literal_slice :
    (∀ (cs ws : Int) (chrom w : List Char) (r : GuideRNA),
        r ∈ (scanWindow cs ws chrom w initScanState).revOut →
        ∃ i : Nat, r.range.1 = cs + ws + (i : Int) ∧
          r.sequence = pySlice w i (i + 24)) ∧
    ((scanWindow 0 0 ['1'] wRevEx initScanState).revOut.map GuideRNA.sequence =
        [pySlice wRevEx 0 24] ∧
      reverse_complement (pySlice wRevEx 0 24) ≠ some (pySlice wRevEx 0 24)) := by
  constructor
  · intro cs ws chrom w r hr
    rw [mem_revOut_iff] at hr
    obtain ⟨i, h2, hc, rfl⟩ := hr
    exact ⟨i, rfl, rfl⟩
  · constructor
    · decide
    · decide

/-- The reverse record the scanner emits on `wRevEx` (hit at offset 0). -/
def rRevEx : GuideRNA := revRecord 0 0 ['1'] wRevEx 0

/-- Witness for C7 on the concrete reverse record of `wRevEx`. -/
theorem reverse_record_literal_slice_witness :
    ∃ i : Nat, rRevEx.range.1 = 0 + 0 + (i : Int) ∧
      rRevEx.sequence = pySlice wRevEx i (i + 24) :=
  reverse_record_literal_slice.1 0 0 ['1'] wRevEx rRevEx (by decide)

/-- The errors `scan_bidirection`/`filemerge` can raise: the failed
`assert self.file` (NotOpen), a header without 'r' (`line.index` raising
`ValueError`, the spec's MalformedHeader), and an uncaught `StopIteration`
from one of the three priming `next()` calls. -/
inductive ScanErr where
  | notOpen
  | malformedHeader
  | stopIteration
deriving DecidableEq

/-- `line[line.index('r')+1:]`: the characters after the first 'r'; `none`
models the `ValueError` raised by `index` when 'r' is absent. -/
def afterChar (c : Char) : List Char → Option (List Char)
  | [] => none
  | x :: xs => if x = c then some xs else afterChar c xs

/-- The `ChromosomeFile` attributes touched by the scan and the merge.
`file_set` models the truthiness of `self.file` (False until `openfile` is
called, and still truthy after a close); `file_closed` records whether
`closefile()` has run; `fileLines` is the unread remainder of the input
file. -/
structure ChromosomeFile where
  file_set : Bool
  file_closed : Bool
  fileLines : List (List Char)
  chrom_start : Int
  linecounter : Nat
  chromosome_num : List Char
  chrom_window : List Char
  window_start : Int
  scanState : ScanState
deriving DecidableEq

/-- What the while-loop of `scan_bidirection` leaves behind. -/
structure LoopResult where
  closed : Bool
  remaining : List (List Char)
  linecounter : Nat
  chrom_window : List Char
  window_start : Int
  scanState : ScanState
deriving DecidableEq

/-- The while-loop of `scan_bidirection`: `line` is the current line, `rest`
the unread lines.  Each pass appends the stripped line to the window, clears
both dedup caches when `linecounter % 10 == 0`, scans every offset of
`chrom_window[0:-1]`, then drops 50 bases and advances `window_start` by 50.
On `StopIteration` from `next()` the method returns at once, so the
`closefile()` written after the loop runs only when a read line is falsy —
something a Python file iterator never yields — and on the exhaustion path
the file is left open. -/
def scanLoop (cs : Int) (chrom : List Char) (rest : List (List Char))
    (line : List Char) (lc : Nat) (w : List Char) (ws : Int) (st : ScanState) :
    LoopResult :=
  if line = [] then ⟨true, rest, lc, w, ws, st⟩
  else
    let w1 := w ++ pyStrip line
    let st1 := if lc % 10 = 0 then { st with fwdCache := [], revCache := [] } else st
    let st2 := scanWindow cs ws chrom w1 st1
    match rest with
    | [] => ⟨false, [], lc, w1.drop 50, ws + 50, st2⟩
    | l :: rest2 => scanLoop cs chrom rest2 l (lc + 1) (w1.drop 50) (ws + 50) st2

/-- `ChromosomeFile.scan_bidirection`: assert the file attribute, reset the
caches and `window_start`, re-initialize both per-strand output files, read
the header line and parse the chromosome id after its first 'r', prime the
window with the next line, read one more line, bump `linecounter` by 3, and
run the while-loop.  Mutations happen in source order, so each error leaves
exactly the state built up to that point. -/
def scan_bidirection (cf : ChromosomeFile) :
    Except ScanErr Unit × ChromosomeFile :=
  if cf.file_set = false then (Except.error ScanErr.notOpen, cf)
  else
    let cf1 := { cf with scanState := initScanState, window_start := (0 : Int) }
    match cf.fileLines with
    | [] => (Except.error ScanErr.stopIteration, cf1)
    | l1 :: rest1 =>
      match afterChar 'r' l1 with
      | none =>
          (Except.error ScanErr.malformedHeader, { cf1 with fileLines := rest1 })
      | some tail =>
        let cf2 := { cf1 with fileLines := rest1, chromosome_num := pyStrip tail }
        match rest1 with
        | [] => (Except.error ScanErr.stopIteration, cf2)
        | l2 :: rest2 =>
          let cf3 := { cf2 with
            fileLines := rest2
            chrom_window := cf.chrom_window ++ pyStrip l2 }
          match rest2 with
          | [] => (Except.error ScanErr.stopIteration, cf3)
          | l3 :: rest3 =>
            let res := scanLoop cf.chrom_start cf3.chromosome_num rest3 l3
                (cf.linecounter + 3) cf3.chrom_window 0 initScanState
            (Except.ok (),
              { cf3 with
                fileLines := res.remaining
                linecounter := res.linecounter
                chrom_window := res.chrom_window
                window_start := res.window_start
                scanState := res.scanState
                file_closed := cf.file_closed || res.closed })

/-- The body of `ChromosomeFile.filemerge` on the lines of the `_F.txt` and
`_R.txt` files: the forward header gains a trailing DIRECTION column, forward
rows are tagged F in order, the reverse header is dropped, and reverse rows
are tagged R in order. -/
def filemerge (fLines rLines : List (List Char)) : List (List Char) :=
  (match fLines with
   | [] => []
   | h :: rows =>
       (pyStrip h ++ '\t' :: ['D', 'I', 'R', 'E', 'C', 'T', 'I', 'O', 'N']) ::
         rows.map (fun l => pyStrip l ++ ['\t', 'F']))
  ++ (match rLines with
      | [] => []
      | _ :: rows => rows.map (fun l => pyStrip l ++ ['\t', 'R']))

/-- `ChromosomeFile.filemerge` as a method: asserts the file attribute first,
then appends the merged lines to the `_mergedguides.txt` file (opened in
append mode, modeled by `merged`). -/
def filemerge_method (cf : ChromosomeFile)
    (fLines rLines merged : List (List Char)) :
    Except ScanErr Unit × (ChromosomeFile × List (List Char)) :=
  if cf.file_set = false then (Except.error ScanErr.notOpen, (cf, merged))
  else (Except.ok (), (cf, merged ++ filemerge fLines rLines))

/-- C5: merging a forward stream of one header plus `F_count` rows with a
reverse stream of one header plus `R_count` rows yields exactly
`1 + F_count + R_count` lines: the forward header with a trailing DIRECTION
column first, then every forward row tagged F in order, then every reverse
row tagged R in order; the reverse header `rh` does not influence the output
at all. -/
theorem filemerge_shape (fh rh : List Char) (fRows rRows : List (List Char)) :
    filemerge (fh :: fRows) (rh :: rRows) =
      (pyStrip fh ++ '\t' :: ['D', 'I', 'R', 'E', 'C', 'T', 'I', 'O', 'N']) ::
        (fRows.map (fun l => pyStrip l ++ ['\t', 'F']) ++
          rRows.map (fun l => pyStrip l ++ ['\t', 'R'])) ∧
    (filemerge (fh :: fRows) (rh :: rRows)).length =
      1 + fRows.length + rRows.length := by
  constructor
  · simp [filemerge]
  · simp only [filemerge, List.length_append, List.length_cons, List.length_map]
    omega

/-- C8: invoking the scan or the merge before the input file was opened fails
with the NotOpen error (the `assert self.file` fires first), and the object
state — and the merged file — are returned exactly as they were. -/
theorem not_open_fails_cleanly (cf : ChromosomeFile)
    (fLines rLines merged : List (List Char)) (h : cf.file_set = false) :
    scan_bidirection cf = (Except.error ScanErr.notOpen, cf) ∧
    filemerge_method cf fLines rLines merged =
      (Except.error ScanErr.notOpen, (cf, merged)) := by
  constructor <;> simp [scan_bidirection, filemerge_method, h]

/-- A `ChromosomeFile` on which `openfile` was never called. -/
def cfUnopenedEx : ChromosomeFile :=
  { file_set := false, file_closed := false,
    fileLines := [['c', 'h', 'r', '1'], ['A', 'C']],
    chrom_start := 0, linecounter := 0, chromosome_num := [],
    chrom_window := [], window_start := 0, scanState := initScanState }

/-- Witness for C8 on the concrete unopened `cfUnopenedEx`. -/
theorem not_open_fails_cleanly_witness :
    scan_bidirection cfUnopenedEx =
      (Except.error ScanErr.notOpen, cfUnopenedEx) ∧
    filemerge_method cfUnopenedEx [] [] [['X']] =
      (Except.error ScanErr.notOpen, (cfUnopenedEx, [['X']])) :=
  not_open_fails_cleanly cfUnopenedEx [] [] [['X']] rfl

/-- An open four-line input: header "chr1", then lines "AC", "GT", "AA". -/
def cfExhaustEx : ChromosomeFile :=
  { file_set := true, file_closed := false,
    fileLines := [['c', 'h', 'r', '1'], ['A', 'C'], ['G', 'T'], ['A', 'A']],
    chrom_start := 0, linecounter := 0, chromosome_num := [],
    chrom_window := [], window_start := 0, scanState := initScanState }

/-- C6 (code bug): scanning `cfExhaustEx` consumes the whole input and
terminates normally, but the input file is left open: the `return` inside the
`except StopIteration:` handler exits `scan_bidirection` before the
`closefile()` placed after the loop ever runs, although the module docstring
promises the input file is closed automatically at the end of the scan. -/
theorem scan_leaves_file_open_on_exhaustion :
    (scan_bidirection cfExhaustEx).1 = Except.ok () ∧
    (scan_bidirection cfExhaustEx).2.fileLines = [] ∧
    (scan_bidirection cfExhaustEx).2.file_closed = false := by
  refine ⟨rfl, rfl, rfl⟩
